import Mathlib

/-!
Shallow embedding of `helper_cli.py`, the deck-tracking model of a pandemic
board-game helper CLI.  The class `Decks` holds an ordered list of infection
decks, a discard pile, and a card-to-color annotation dict; this file embeds
its mutation operations (`draw`, `reshuffle_discard`, `remove_discard`,
`mark_card`, `unmark_card`), its persistence (`load`/`save`), and the
grouped-count ordering used for rendering, and proves theorems checking the
specification's claims about them.

Python operations that can raise (`infection_deck[0]` on an empty list,
`del d[k]` on a missing key) are embedded as `Option`-returning functions,
`none` standing for the raised exception.
-/

namespace PandemicHelper

/-- Python `list.sort()` on strings: ascending stable sort
(`self.discard_pile.sort()` in `Decks.draw`). -/
def sortAsc (l : List String) : List String :=
  l.mergeSort (fun a b => a ≤ b)

/-- A Python `dict[str, str]`: an association list in key-insertion order,
keys unique. -/
abbrev Dict := List (String × String)

/-- The keys of a dict, in insertion order. -/
def dictKeys (d : Dict) : List String := d.map Prod.fst

/-- Python `d[k] = v`: replace the value in place when the key is present,
otherwise append a new entry. -/
def dictSet (d : Dict) (k v : String) : Dict :=
  if k ∈ dictKeys d then d.map (fun p => if p.1 = k then (p.1, v) else p)
  else d ++ [(k, v)]

/-- Python `del d[k]`: `none` models the `KeyError` raised when the key is
absent. -/
def dictDel (d : Dict) (k : String) : Option Dict :=
  if k ∈ dictKeys d then some (d.filter (fun p => p.1 ≠ k)) else none

/-- The state held by class `Decks` in `helper_cli.py`:
`infection_deck` (a list of decks, topmost first), `discard_pile`,
and `card_to_color`. -/
structure Decks where
  infection_deck : List (List String)
  discard_pile : List String
  card_to_color : Dict
deriving DecidableEq, Repr

/-- The persisted snapshot (`state.json` / `save.json`): a JSON object whose
three fields are each optional on read (`obj.get(key, default)`). -/
structure Snapshot where
  infection : Option (List (List String))
  discard : Option (List String)
  card_to_color : Option Dict
deriving DecidableEq, Repr

namespace Decks

/-- `Decks.load`: `none` models a missing file (`FileNotFoundError`, after
which `obj = {}` and every field takes its default). -/
def load (file : Option Snapshot) : Decks :=
  match file with
  | none =>
    { infection_deck := [[]], discard_pile := [], card_to_color := [] }
  | some obj =>
    { infection_deck := obj.infection.getD [[]]
      discard_pile := obj.discard.getD []
      card_to_color := obj.card_to_color.getD [] }

/-- `Decks.save`: writes all three fields of the state. -/
def save (s : Decks) : Snapshot :=
  { infection := some s.infection_deck
    discard := some s.discard_pile
    card_to_color := some s.card_to_color }

/-- `Decks.draw`: `if card in self.infection_deck[0]` indexes the first deck,
raising `IndexError` (here `none`) when `infection_deck` is empty.  When the
card is in the topmost deck its first occurrence is removed
(`list.remove`) and the deck is popped if it became empty; in every
non-raising case the card is appended to the discard pile, which is then
sorted. -/
def draw (s : Decks) (card : String) : Option Decks :=
  match s.infection_deck with
  | [] => none
  | top :: rest =>
    let decks :=
      if card ∈ top then
        let t := top.erase card
        if t = [] then rest else t :: rest
      else top :: rest
    some { s with infection_deck := decks
                  discard_pile := sortAsc (s.discard_pile ++ [card]) }

/-- `Decks.reshuffle_discard`: when the discard pile is non-empty, insert a
copy of it as a new deck at index 0 and clear the discard pile.  -/
def reshuffle_discard (s : Decks) : Decks :=
  if s.discard_pile.length > 0 then
    { s with infection_deck := s.discard_pile :: s.infection_deck
             discard_pile := [] }
  else s

/-- `Decks.remove_discard`: remove the first occurrence of the card from the
discard pile when present; otherwise do nothing. -/
def remove_discard (s : Decks) (card : String) : Decks :=
  if card ∈ s.discard_pile then
    { s with discard_pile := s.discard_pile.erase card }
  else s

/-- `Decks.mark_card`: `self.card_to_color[card] = color`. -/
def mark_card (s : Decks) (card color : String) : Decks :=
  { s with card_to_color := dictSet s.card_to_color card color }

/-- `Decks.unmark_card`: `del self.card_to_color[card]`; `none` models the
`KeyError` on an absent key. -/
def unmark_card (s : Decks) (card : String) : Option Decks :=
  (dictDel s.card_to_color card).map
    (fun d => { s with card_to_color := d })

/-- `Decks.compare`: a negative result orders `item1` first.  Counts compare
descending; equal counts fall back to names ascending. -/
def compare (item1 item2 : Nat × String) : Int :=
  if item1.1 > item2.1 then -1
  else if item2.1 > item1.1 then 1
  else if item1.2 > item2.2 then 1
  else if item2.2 > item1.2 then -1
  else 0

/-- The `card_counts` dict built by the loop of `Decks._print_formatting`:
`card_counts[card] = card_counts.get(card, 0) + 1` per card, entries in
first-occurrence order. -/
def cardCountsAux (acc : List (String × Nat)) :
    List String → List (String × Nat)
  | [] => acc
  | card :: rest =>
    cardCountsAux
      (if card ∈ acc.map Prod.fst then
        acc.map (fun p => if p.1 = card then (p.1, p.2 + 1) else p)
      else acc ++ [(card, 1)])
      rest

/-- The complete `card_counts` of a card list. -/
def cardCounts (lis : List String) : List (String × Nat) :=
  cardCountsAux [] lis

/-- The Boolean order used for `card_tuples.sort(key=cmp_to_key(self.compare))`:
`a` may come before `b` exactly when `compare a b ≤ 0`.  Python's sort and
`List.mergeSort` are both stable, so sorting by this order reproduces the
Python result. -/
def tupleLe (a b : Nat × String) : Bool := compare a b ≤ 0

/-- The grouped-and-sorted summary computed by `Decks._print_formatting`
(the count/name tuples, before they are rendered to strings): counts of the
whole list, sorted by `compare`. -/
def groupSummary (lis : List String) : List (Nat × String) :=
  ((cardCounts lis).map (fun p => (p.2, p.1))).mergeSort tupleLe

/-- The ordering that `Decks.compare` encodes, as a relation: strictly
greater count first; equal counts ordered by name ascending. -/
def summaryOrder (a b : Nat × String) : Prop :=
  b.1 < a.1 ∨ (a.1 = b.1 ∧ a.2 ≤ b.2)

end Decks

/-! ### Helper lemmas about `sortAsc` -/

theorem sortAsc_perm (l : List String) : (sortAsc l).Perm l :=
  List.mergeSort_perm l _

theorem sortAsc_sorted (l : List String) : (sortAsc l).Sorted (· ≤ ·) :=
  List.sorted_mergeSort' l

theorem sortAsc_count (l : List String) (c : String) :
    (sortAsc (l ++ [c])).count c = l.count c + 1 := by
  rw [(sortAsc_perm _).count_eq]
  simp

/-! ### Helper lemmas about dicts -/

theorem dictKeys_mem_dictSet (d : Dict) (k v : String) :
    k ∈ dictKeys (dictSet d k v) := by
  unfold dictSet
  by_cases h : k ∈ dictKeys d
  · rw [if_pos h]
    unfold dictKeys at h ⊢
    obtain ⟨p, hp, hpk⟩ := List.mem_map.mp h
    refine List.mem_map.mpr ⟨(p.1, v), ?_, hpk⟩
    refine List.mem_map.mpr ⟨p, hp, ?_⟩
    simp [hpk]
  · rw [if_neg h]
    unfold dictKeys
    simp

theorem dictDel_not_mem_keys (d d2 : Dict) (k : String)
    (h : dictDel d k = some d2) : k ∉ dictKeys d2 := by
  unfold dictDel at h
  split at h
  · cases h
    intro hmem
    unfold dictKeys at hmem
    obtain ⟨p, hp, hpk⟩ := List.mem_map.mp hmem
    have hf := List.mem_filter.mp hp
    simp [hpk] at hf
  · cases h

/-! ### C1: `draw` on an empty deck list -/

/-- C1 counterexample: the claim says `draw` never fails, "in particular it
succeeds even when `infectionDecks` is the empty sequence"; but on the state
with no decks at all, `draw` raises `IndexError`
(`self.infection_deck[0]` on an empty list), embedded as `none`. -/
theorem C1_draw_fails_on_empty_decks :
    Decks.draw { infection_deck := [], discard_pile := [], card_to_color := [] }
      "epidemic" = none := rfl

/-- C1 (amended): `draw c` fails exactly when `infection_deck` is empty
(`IndexError` on `self.infection_deck[0]`); whenever it succeeds — whether
or not `c` was in the topmost deck — the new discard pile is sorted and is
the old one plus one copy of `c`. -/
theorem C1_draw_total_amended (s : Decks) (c : String) :
    (s.infection_deck = [] → Decks.draw s c = none) ∧
    (s.infection_deck ≠ [] → (Decks.draw s c).isSome = true) ∧
    (∀ s', Decks.draw s c = some s' →
      s'.discard_pile.Sorted (· ≤ ·) ∧
      s'.discard_pile.Perm (c :: s.discard_pile)) := by
  obtain ⟨decks, disc, colors⟩ := s
  cases decks with
  | nil =>
    refine ⟨fun _ => rfl, fun h => absurd rfl h, fun s' h => ?_⟩
    cases h
  | cons top rest =>
    refine ⟨?_, ?_, ?_⟩
    · intro h
      exact nomatch h
    · intro _
      rfl
    · intro s' h
      cases h
      exact ⟨sortAsc_sorted _,
        (sortAsc_perm _).trans (List.perm_append_singleton c disc)⟩

unseal String.ltb List.merge List.mergeSort in
/-- Witness for `C1_draw_total_amended` at concrete states: the failing
empty-decks state and a successful draw. -/
theorem C1_draw_total_amended_witness :
    Decks.draw
      { infection_deck := [], discard_pile := [], card_to_color := [] }
      "a" = none ∧
    (Decks.draw
      { infection_deck := [["a"]], discard_pile := ["b"], card_to_color := [] }
      "a").isSome = true ∧
    (({ infection_deck := [], discard_pile := ["a", "b"], card_to_color := [] }
        : Decks).discard_pile.Sorted (· ≤ ·) ∧
      ({ infection_deck := [], discard_pile := ["a", "b"], card_to_color := [] }
        : Decks).discard_pile.Perm ("a" :: ["b"])) :=
  ⟨(C1_draw_total_amended
      { infection_deck := [], discard_pile := [], card_to_color := [] }
      "a").1 rfl,
   (C1_draw_total_amended
      { infection_deck := [["a"]], discard_pile := ["b"], card_to_color := [] }
      "a").2.1 (by decide),
   (C1_draw_total_amended
      { infection_deck := [["a"]], discard_pile := ["b"], card_to_color := [] }
      "a").2.2
     { infection_deck := [], discard_pile := ["a", "b"], card_to_color := [] }
     (by decide)⟩

/-! ### C2: the `draw("epidemic")`-then-reshuffle scenario -/

unseal String.ltb List.merge List.mergeSort in
/-- C2 counterexample: from the default state (`infection_deck = [[]]`),
`draw "epidemic"` does not yield `infection_deck = []` as the claim states;
the empty sentinel deck is kept, because the pop happens only when the card
was found in the topmost deck. -/
theorem C2_sentinel_not_removed :
    Decks.draw (Decks.load none) "epidemic" ≠
      some { infection_deck := [], discard_pile := ["epidemic"],
             card_to_color := [] } := by
  decide

unseal String.ltb List.merge List.mergeSort in
/-- C2 amended: from the default state, `draw "epidemic"` leaves the empty
sentinel deck in place (the card was not in it, so nothing is removed or
popped) and discards the card; `reshuffle_discard` then prepends
`["epidemic"]` as a new deck in front of the still-present empty deck. -/
theorem C2_scenario :
    Decks.draw (Decks.load none) "epidemic" =
      some { infection_deck := [[]], discard_pile := ["epidemic"],
             card_to_color := [] } ∧
    Decks.reshuffle_discard
      { infection_deck := [[]], discard_pile := ["epidemic"],
        card_to_color := [] } =
      { infection_deck := [["epidemic"], []], discard_pile := [],
        card_to_color := [] } := by
  constructor <;> decide

/-! ### C5: the grouped-and-sorted summary -/

theorem tupleLe_iff (a b : Nat × String) :
    Decks.tupleLe a b = true ↔ Decks.summaryOrder a b := by
  unfold Decks.tupleLe Decks.compare Decks.summaryOrder
  split_ifs with h1 h2 h3 h4
  · exact iff_of_true (by decide) (Or.inl h1)
  · refine iff_of_false (by decide) ?_
    rintro (h | ⟨he, _⟩) <;> omega
  · refine iff_of_false (by decide) ?_
    rintro (h | ⟨he, hle⟩)
    · omega
    · exact absurd hle (not_le.mpr h3)
  · exact iff_of_true (by decide)
      (Or.inr ⟨le_antisymm (not_lt.mp h1) (not_lt.mp h2), le_of_lt h4⟩)
  · exact iff_of_true (by decide)
      (Or.inr ⟨le_antisymm (not_lt.mp h1) (not_lt.mp h2), not_lt.mp h3⟩)

theorem summaryOrder_trans (a b c : Nat × String)
    (hab : Decks.summaryOrder a b) (hbc : Decks.summaryOrder b c) :
    Decks.summaryOrder a c := by
  unfold Decks.summaryOrder at hab hbc ⊢
  rcases hab with h | ⟨e1, l1⟩ <;> rcases hbc with h' | ⟨e2, l2⟩
  · exact Or.inl (lt_trans h' h)
  · exact Or.inl (by omega)
  · exact Or.inl (by omega)
  · exact Or.inr ⟨e1.trans e2, le_trans l1 l2⟩

theorem summaryOrder_total (a b : Nat × String) :
    Decks.summaryOrder a b ∨ Decks.summaryOrder b a := by
  unfold Decks.summaryOrder
  rcases Nat.lt_trichotomy a.1 b.1 with h | h | h
  · exact Or.inr (Or.inl h)
  · rcases le_total a.2 b.2 with hs | hs
    · exact Or.inl (Or.inr ⟨h, hs⟩)
    · exact Or.inr (Or.inr ⟨h.symm, hs⟩)
  · exact Or.inl (Or.inl h)

theorem tupleLe_trans (a b c : Nat × String) (h1 : Decks.tupleLe a b)
    (h2 : Decks.tupleLe b c) : Decks.tupleLe a c :=
  (tupleLe_iff a c).mpr
    (summaryOrder_trans a b c ((tupleLe_iff a b).mp h1)
      ((tupleLe_iff b c).mp h2))

theorem tupleLe_total (a b : Nat × String) :
    Decks.tupleLe a b || Decks.tupleLe b a := by
  rw [Bool.or_eq_true]
  rcases summaryOrder_total a b with h | h
  · exact Or.inl ((tupleLe_iff a b).mpr h)
  · exact Or.inr ((tupleLe_iff b a).mpr h)

theorem groupSummary_pairwise (lis : List String) :
    (Decks.groupSummary lis).Pairwise Decks.summaryOrder := by
  unfold Decks.groupSummary
  have h := List.sorted_mergeSort tupleLe_trans tupleLe_total
    ((Decks.cardCounts lis).map (fun p => (p.2, p.1)))
  exact h.imp (fun hab => (tupleLe_iff _ _).mp hab)

theorem cardCountsAux_map_fst_update (acc : List (String × Nat))
    (card : String) :
    (acc.map (fun p => if p.1 = card then (p.1, p.2 + 1) else p)).map
      Prod.fst = acc.map Prod.fst := by
  rw [List.map_map]
  apply List.map_congr_left
  intro p _
  by_cases hp : p.1 = card <;> simp [hp]

theorem cardCountsAux_mem_keys (lis : List String) :
    ∀ (acc : List (String × Nat)) (k : String),
      k ∈ (Decks.cardCountsAux acc lis).map Prod.fst ↔
        k ∈ acc.map Prod.fst ∨ k ∈ lis := by
  induction lis with
  | nil =>
    intro acc k
    simp [Decks.cardCountsAux]
  | cons card rest ih =>
    intro acc k
    unfold Decks.cardCountsAux
    rw [ih]
    by_cases hc : card ∈ acc.map Prod.fst
    · rw [if_pos hc, cardCountsAux_map_fst_update]
      constructor
      · rintro (h | h)
        · exact Or.inl h
        · exact Or.inr (List.mem_cons_of_mem _ h)
      · rintro (h | h)
        · exact Or.inl h
        · rcases List.mem_cons.mp h with rfl | h2
          · exact Or.inl hc
          · exact Or.inr h2
    · rw [if_neg hc, List.map_append]
      simp [or_assoc]

theorem cardCountsAux_keys_nodup (lis : List String) :
    ∀ acc : List (String × Nat), (acc.map Prod.fst).Nodup →
      ((Decks.cardCountsAux acc lis).map Prod.fst).Nodup := by
  induction lis with
  | nil =>
    intro acc h
    exact h
  | cons card rest ih =>
    intro acc h
    unfold Decks.cardCountsAux
    by_cases hc : card ∈ acc.map Prod.fst
    · rw [if_pos hc]
      refine ih _ ?_
      rw [cardCountsAux_map_fst_update]
      exact h
    · rw [if_neg hc]
      refine ih _ ?_
      rw [List.map_append]
      simp [List.nodup_append, h, hc]

theorem cardCountsAux_val (lis : List String) :
    ∀ (acc : List (String × Nat)) (pre : List String),
      (∀ p ∈ acc, p.2 = pre.count p.1) →
      (∀ k ∈ pre, k ∈ acc.map Prod.fst) →
      ∀ p ∈ Decks.cardCountsAux acc lis, p.2 = (pre ++ lis).count p.1 := by
  induction lis with
  | nil =>
    intro acc pre hval _ p hp
    simpa using hval p hp
  | cons card rest ih =>
    intro acc pre hval hcov p hp
    unfold Decks.cardCountsAux at hp
    have key : ∀ q ∈ (if card ∈ acc.map Prod.fst then
          acc.map (fun p => if p.1 = card then (p.1, p.2 + 1) else p)
        else acc ++ [(card, 1)]),
        q.2 = (pre ++ [card]).count q.1 := by
      intro q hq
      by_cases hc : card ∈ acc.map Prod.fst
      · rw [if_pos hc] at hq
        obtain ⟨r, hr, hrq⟩ := List.mem_map.mp hq
        have hrv := hval r hr
        by_cases hrc : r.1 = card
        · rw [if_pos hrc] at hrq
          cases hrq
          simp [List.count_append, hrc, hrv]
        · rw [if_neg hrc] at hrq
          cases hrq
          simp [List.count_append, hrc, hrv]
      · rw [if_neg hc] at hq
        rcases List.mem_append.mp hq with hq1 | hq2
        · have hne : q.1 ≠ card := by
            intro he
            exact hc (he ▸ List.mem_map_of_mem Prod.fst hq1)
          have := hval q hq1
          simp [List.count_append, hne, this]
        · have hq2' : q = (card, 1) := List.mem_singleton.mp hq2
          subst hq2'
          have hpre : pre.count card = 0 := by
            rw [List.count_eq_zero]
            intro hmem
            exact hc (hcov card hmem)
          simp [List.count_append, hpre]
    have hcov' : ∀ k ∈ pre ++ [card],
        k ∈ ((if card ∈ acc.map Prod.fst then
          acc.map (fun p => if p.1 = card then (p.1, p.2 + 1) else p)
        else acc ++ [(card, 1)]).map Prod.fst) := by
      intro k hk
      by_cases hc : card ∈ acc.map Prod.fst
      · rw [if_pos hc, cardCountsAux_map_fst_update]
        rcases List.mem_append.mp hk with h1 | h2
        · exact hcov k h1
        · rw [List.mem_singleton.mp h2]
          exact hc
      · rw [if_neg hc, List.map_append]
        rcases List.mem_append.mp hk with h1 | h2
        · exact List.mem_append_left _ (hcov k h1)
        · rw [List.mem_singleton.mp h2]
          simp
    have hres := ih _ (pre ++ [card]) key hcov' p hp
    simpa [List.append_assoc] using hres

theorem cardCounts_mem_iff (lis : List String) (p : String × Nat) :
    p ∈ Decks.cardCounts lis ↔ p.1 ∈ lis ∧ p.2 = lis.count p.1 := by
  unfold Decks.cardCounts
  constructor
  · intro hp
    have hval := cardCountsAux_val lis [] [] (by simp) (by simp) p hp
    have hkey : p.1 ∈ (Decks.cardCountsAux [] lis).map Prod.fst :=
      List.mem_map_of_mem Prod.fst hp
    have hmem := (cardCountsAux_mem_keys lis [] p.1).mp hkey
    simp only [List.map_nil, List.not_mem_nil, false_or] at hmem
    exact ⟨hmem, by simpa using hval⟩
  · rintro ⟨hmem, hcount⟩
    have hkey : p.1 ∈ (Decks.cardCountsAux [] lis).map Prod.fst :=
      (cardCountsAux_mem_keys lis [] p.1).mpr (Or.inr hmem)
    obtain ⟨q, hq, hq1⟩ := List.mem_map.mp hkey
    have hqv := cardCountsAux_val lis [] [] (by simp) (by simp) q hq
    have hq2 : q.2 = p.2 := by
      rw [hcount, ← hq1]
      simpa using hqv
    have hqp : q = p := Prod.ext_iff.mpr ⟨hq1, hq2⟩
    exact hqp ▸ hq

unseal String.ltb List.merge List.mergeSort in
/-- C5: the grouped summary is a pure, total function of the card list: a
pair `(n, c)` occurs in it exactly when `c` occurs in the list and `n` is
its number of occurrences; no card appears in two groups; the groups are
ordered by descending count with ties broken by ascending name; and on
`["b","a","b","c","a","a"]` the summary is `[(3,"a"), (2,"b"), (1,"c")]`. -/
theorem C5_group_summary (lis : List String) (q : Nat × String) :
    Decks.groupSummary ["b", "a", "b", "c", "a", "a"] =
      [(3, "a"), (2, "b"), (1, "c")] ∧
    (q ∈ Decks.groupSummary lis ↔ q.2 ∈ lis ∧ q.1 = lis.count q.2) ∧
    ((Decks.groupSummary lis).map Prod.snd).Nodup ∧
    (Decks.groupSummary lis).Pairwise Decks.summaryOrder := by
  refine ⟨by decide, ?_, ?_, groupSummary_pairwise lis⟩
  · unfold Decks.groupSummary
    constructor
    · intro hq
      have hq' := List.mem_mergeSort.mp hq
      obtain ⟨p, hp, hpq⟩ := List.mem_map.mp hq'
      have hc := (cardCounts_mem_iff lis p).mp hp
      cases hpq
      exact ⟨hc.1, hc.2⟩
    · rintro ⟨hmem, hcount⟩
      apply List.mem_mergeSort.mpr
      apply List.mem_map.mpr
      refine ⟨(q.2, q.1), ?_, rfl⟩
      exact (cardCounts_mem_iff lis (q.2, q.1)).mpr ⟨hmem, hcount⟩
  · unfold Decks.groupSummary
    have hperm :
        ((((Decks.cardCounts lis).map (fun p => (p.2, p.1))).mergeSort
          Decks.tupleLe).map Prod.snd).Perm
          (((Decks.cardCounts lis).map (fun p => (p.2, p.1))).map Prod.snd) :=
      (List.mergeSort_perm _ _).map Prod.snd
    have he : ((Decks.cardCounts lis).map (fun p => (p.2, p.1))).map
        Prod.snd = (Decks.cardCounts lis).map Prod.fst := by
      rw [List.map_map]
      rfl
    have hnd : ((Decks.cardCounts lis).map Prod.fst).Nodup :=
      cardCountsAux_keys_nodup lis [] (by simp)
    rw [he] at hperm
    exact hperm.nodup_iff.mpr hnd

/-! ### C6: save/load round trip -/

/-- C6: loading a saved snapshot reproduces the state exactly: deck order,
card order within each deck and within the discard pile, and the annotation
entries are all preserved. -/
theorem C6_save_load_round_trip (s : Decks) :
    Decks.load (some (Decks.save s)) = s := rfl

/-! ### C3: empty decks inside `infection_deck` -/

unseal String.ltb List.merge List.mergeSort in
/-- C3 counterexample: after a draw has occurred, `infection_deck` can still
contain an empty deck, and not only as the sentinel `[[]]`: drawing
"epidemic" from the initial state keeps the empty sentinel deck (the pop
happens only when the drawn card was found in the topmost deck), and the
following reshuffle buries it, producing `[["epidemic"], []]`. -/
theorem C3_empty_deck_survives_draw :
    Decks.draw
      { infection_deck := [[]], discard_pile := [], card_to_color := [] }
      "epidemic" =
      some
        { infection_deck := [[]], discard_pile := ["epidemic"],
          card_to_color := [] } ∧
    (Decks.reshuffle_discard
      { infection_deck := [[]], discard_pile := ["epidemic"],
        card_to_color := [] }).infection_deck = [["epidemic"], []] ∧
    [] ∈ [["epidemic"], ([] : List String)] ∧
    [["epidemic"], ([] : List String)] ≠ [[]] := by
  exact ⟨by decide, by decide, by decide, by decide⟩

/-- C3 (amended): every mutation preserves the absence of empty decks in
`infection_deck` when it held before the call; the sentinel empty deck of
the initial state, however, survives draws of cards not contained in it, so
"no empty deck after a draw has occurred" does not hold in general. -/
theorem C3_no_empty_deck_preserved (s : Decks) (c v : String)
    (h : ∀ d ∈ s.infection_deck, d ≠ []) :
    (∀ s', Decks.draw s c = some s' → ∀ d ∈ s'.infection_deck, d ≠ []) ∧
    (∀ d ∈ (Decks.reshuffle_discard s).infection_deck, d ≠ []) ∧
    (∀ d ∈ (Decks.remove_discard s c).infection_deck, d ≠ []) ∧
    (∀ d ∈ (Decks.mark_card s c v).infection_deck, d ≠ []) ∧
    (∀ s', Decks.unmark_card s c = some s' →
      ∀ d ∈ s'.infection_deck, d ≠ []) := by
  obtain ⟨decks, disc, colors⟩ := s
  refine ⟨?_, ?_, ?_, ?_, ?_⟩
  · intro s' hs'
    cases decks with
    | nil => cases hs'
    | cons top rest =>
      cases hs'
      intro d hd
      by_cases hm : c ∈ top
      · by_cases he : top.erase c = []
        · simp only [Decks.draw, hm, he, if_true, if_pos] at hd
          exact h d (List.mem_cons_of_mem _ hd)
        · simp only [Decks.draw, hm, he, if_true, if_neg] at hd
          rcases List.mem_cons.mp hd with hd1 | hd2
          · rw [hd1]; exact he
          · exact h d (List.mem_cons_of_mem _ hd2)
      · simp only [Decks.draw, hm, if_neg] at hd
        exact h d hd
  · unfold Decks.reshuffle_discard
    split
    · next hlen =>
      intro d hd
      rcases List.mem_cons.mp hd with hd1 | hd2
      · rw [hd1]
        exact List.ne_nil_of_length_pos hlen
      · exact h d hd2
    · exact h
  · unfold Decks.remove_discard
    split
    · exact h
    · exact h
  · exact h
  · intro s' hs'
    unfold Decks.unmark_card dictDel at hs'
    split at hs'
    · cases hs'
      exact h
    · cases hs'

/-- Witness for `C3_no_empty_deck_preserved`: the reshuffle conjunct applied
to a concrete state with no empty deck, at the concrete new topmost deck. -/
theorem C3_no_empty_deck_preserved_witness :
    (["b"] : List String) ≠ [] :=
  (C3_no_empty_deck_preserved
    { infection_deck := [["a"]], discard_pile := ["b"], card_to_color := [] }
    "c" "red" (by decide)).2.1 ["b"] (by decide)

/-! ### C4: the discard pile stays sorted and counts the drawn card -/

/-- C4: a successful `draw c` puts exactly one more occurrence of `c` into
the discard pile and leaves the pile sorted (whether or not `c` was in the
topmost deck); every other mutation keeps the discard pile sorted when it
was sorted before the call. -/
theorem C4_discard_count_sorted (s : Decks) (c v : String) :
    (∀ s', Decks.draw s c = some s' →
      s'.discard_pile.count c = s.discard_pile.count c + 1 ∧
      s'.discard_pile.Sorted (· ≤ ·)) ∧
    (s.discard_pile.Sorted (· ≤ ·) →
      (Decks.reshuffle_discard s).discard_pile.Sorted (· ≤ ·) ∧
      (Decks.remove_discard s c).discard_pile.Sorted (· ≤ ·) ∧
      (Decks.mark_card s c v).discard_pile.Sorted (· ≤ ·) ∧
      (∀ s', Decks.unmark_card s c = some s' →
        s'.discard_pile.Sorted (· ≤ ·))) := by
  obtain ⟨decks, disc, colors⟩ := s
  refine ⟨?_, ?_⟩
  · intro s' hs'
    cases decks with
    | nil => cases hs'
    | cons top rest =>
      cases hs'
      exact ⟨sortAsc_count disc c, sortAsc_sorted _⟩
  · intro hsorted
    refine ⟨?_, ?_, hsorted, ?_⟩
    · unfold Decks.reshuffle_discard
      split
      · exact List.sorted_nil
      · exact hsorted
    · unfold Decks.remove_discard
      split
      · exact List.Pairwise.sublist (List.erase_sublist _ _) hsorted
      · exact hsorted
    · intro s' hs'
      unfold Decks.unmark_card dictDel at hs'
      split at hs'
      · cases hs'
        exact hsorted
      · cases hs'

unseal String.ltb List.merge List.mergeSort in
/-- Witness for `C4_discard_count_sorted`: a concrete draw of "a" onto the
discard pile `["b"]`, and a concrete reshuffle. -/
theorem C4_discard_count_sorted_witness :
    ((["a", "b"] : List String).count "a" =
        (["b"] : List String).count "a" + 1 ∧
      (["a", "b"] : List String).Sorted (· ≤ ·)) ∧
    (Decks.reshuffle_discard
      { infection_deck := [["x"]], discard_pile := ["b"], card_to_color := [] }
      ).discard_pile.Sorted (· ≤ ·) :=
  ⟨(C4_discard_count_sorted
      { infection_deck := [["x"]], discard_pile := ["b"], card_to_color := [] }
      "a" "v").1
      { infection_deck := [["x"]], discard_pile := ["a", "b"],
        card_to_color := [] }
      (by decide),
   ((C4_discard_count_sorted
      { infection_deck := [["x"]], discard_pile := ["b"], card_to_color := [] }
      "a" "v").2 (by decide)).1⟩

/-! ### C7: `unmark_card` failure semantics -/

/-- C7: `unmark_card c` fails (Python `KeyError`) exactly when `c` has no
entry in the annotation dict; after `mark_card c v` it succeeds, and running
it a second time fails with the not-found condition. -/
theorem C7_unmark_key_not_found (s : Decks) (c v : String) :
    (Decks.unmark_card s c = none ↔ c ∉ dictKeys s.card_to_color) ∧
    (Decks.unmark_card (Decks.mark_card s c v) c).isSome = true ∧
    (∀ s', Decks.unmark_card (Decks.mark_card s c v) c = some s' →
      Decks.unmark_card s' c = none) := by
  refine ⟨?_, ?_, ?_⟩
  · unfold Decks.unmark_card dictDel
    by_cases h : c ∈ dictKeys s.card_to_color <;> simp [h]
  · unfold Decks.unmark_card Decks.mark_card dictDel
    simp [dictKeys_mem_dictSet]
  · intro s' hs'
    unfold Decks.unmark_card at hs'
    cases hd : dictDel (Decks.mark_card s c v).card_to_color c with
    | none =>
      rw [hd] at hs'
      cases hs'
    | some d2 =>
      rw [hd] at hs'
      cases hs'
      have hk := dictDel_not_mem_keys _ _ _ hd
      unfold Decks.unmark_card dictDel
      simp [hk]

/-- Witness for `C7_unmark_key_not_found`: the "atlanta"/"red" scenario,
on a state that already has an unrelated annotation. -/
theorem C7_unmark_key_not_found_witness :
    Decks.unmark_card
      { infection_deck := [[]], discard_pile := [],
        card_to_color := [("boston", "blue")] } "atlanta" = none ∧
    (Decks.unmark_card
      (Decks.mark_card
        { infection_deck := [[]], discard_pile := [],
          card_to_color := [("boston", "blue")] } "atlanta" "red")
      "atlanta").isSome = true ∧
    Decks.unmark_card
      { infection_deck := [[]], discard_pile := [],
        card_to_color := [("boston", "blue")] } "atlanta" = none :=
  ⟨(C7_unmark_key_not_found
      { infection_deck := [[]], discard_pile := [],
        card_to_color := [("boston", "blue")] } "atlanta" "red").1.mpr
      (by decide),
   (C7_unmark_key_not_found
      { infection_deck := [[]], discard_pile := [],
        card_to_color := [("boston", "blue")] } "atlanta" "red").2.1,
   (C7_unmark_key_not_found
      { infection_deck := [[]], discard_pile := [],
        card_to_color := [("boston", "blue")] } "atlanta" "red").2.2
      { infection_deck := [[]], discard_pile := [],
        card_to_color := [("boston", "blue")] }
      (by decide)⟩

/-! ### C8: `reshuffle_discard` -/

/-- C8: `reshuffle_discard` prepends the whole discard pile as one new deck
(in its current order) and clears the pile when the pile is non-empty, is
the identity when the pile is empty, and is therefore idempotent. -/
theorem C8_reshuffle_idempotent (s : Decks) :
    (s.discard_pile ≠ [] →
      Decks.reshuffle_discard s =
        { infection_deck := s.discard_pile :: s.infection_deck,
          discard_pile := [], card_to_color := s.card_to_color }) ∧
    (s.discard_pile = [] → Decks.reshuffle_discard s = s) ∧
    Decks.reshuffle_discard (Decks.reshuffle_discard s) =
      Decks.reshuffle_discard s := by
  obtain ⟨decks, disc, colors⟩ := s
  cases disc <;> simp [Decks.reshuffle_discard]

/-- Witness for `C8_reshuffle_idempotent`: one non-empty and one empty
discard pile. -/
theorem C8_reshuffle_idempotent_witness :
    Decks.reshuffle_discard
      { infection_deck := [["x"]], discard_pile := ["a"],
        card_to_color := [] } =
      { infection_deck := [["a"], ["x"]], discard_pile := [],
        card_to_color := [] } ∧
    Decks.reshuffle_discard
      { infection_deck := [], discard_pile := [], card_to_color := [] } =
      { infection_deck := [], discard_pile := [], card_to_color := [] } :=
  ⟨(C8_reshuffle_idempotent
      { infection_deck := [["x"]], discard_pile := ["a"],
        card_to_color := [] }).1 (by decide),
   (C8_reshuffle_idempotent
      { infection_deck := [], discard_pile := [], card_to_color := [] }).2.1
      rfl⟩

/-! ### C9: deck popping -/

/-- C9: when the topmost deck consists of `c` alone (equivalently, removing
the first occurrence of `c` empties it), `draw c` pops that deck: the deck
count drops by exactly one and the previous second deck becomes topmost. -/
theorem C9_deck_popping (s : Decks) (c : String) (top : List String)
    (rest : List (List String)) (hdeck : s.infection_deck = top :: rest)
    (hmem : c ∈ top) (hempty : top.erase c = []) :
    (Decks.draw s c).map Decks.infection_deck = some rest ∧
    s.infection_deck.length = rest.length + 1 := by
  obtain ⟨decks, disc, colors⟩ := s
  simp only at hdeck
  subst hdeck
  simp [Decks.draw, hmem, hempty]

/-- Witness for `C9_deck_popping`: drawing the only card of the topmost
deck. -/
theorem C9_deck_popping_witness :
    (Decks.draw
        { infection_deck := [["epidemic"], ["atlanta"]], discard_pile := [],
          card_to_color := [] } "epidemic").map Decks.infection_deck =
      some [["atlanta"]] ∧
    ([["epidemic"], ["atlanta"]] : List (List String)).length =
      ([["atlanta"]] : List (List String)).length + 1 :=
  C9_deck_popping
    { infection_deck := [["epidemic"], ["atlanta"]], discard_pile := [],
      card_to_color := [] }
    "epidemic" ["epidemic"] [["atlanta"]] rfl (by decide) (by decide)

/-! ### C10: frame conditions -/

/-- C10: a successful `draw` never changes the annotation dict and leaves
all decks below the topmost unchanged (the topmost is either replaced or
popped, so the tail decks survive in order); `remove_discard`, `mark_card`
and `unmark_card` never touch `infection_deck`; `mark_card` and
`unmark_card` never touch `discard_pile`; `remove_discard` never touches
the annotation dict. -/
theorem C10_frame (s : Decks) (c v : String) :
    (∀ s', Decks.draw s c = some s' →
      s'.card_to_color = s.card_to_color ∧
      (s'.infection_deck = s.infection_deck.tail ∨
        s'.infection_deck.tail = s.infection_deck.tail)) ∧
    (Decks.remove_discard s c).infection_deck = s.infection_deck ∧
    (Decks.mark_card s c v).infection_deck = s.infection_deck ∧
    (∀ s', Decks.unmark_card s c = some s' →
      s'.infection_deck = s.infection_deck) ∧
    (Decks.mark_card s c v).discard_pile = s.discard_pile ∧
    (∀ s', Decks.unmark_card s c = some s' →
      s'.discard_pile = s.discard_pile) ∧
    (Decks.remove_discard s c).card_to_color = s.card_to_color := by
  obtain ⟨decks, disc, colors⟩ := s
  refine ⟨?_, ?_, rfl, ?_, rfl, ?_, ?_⟩
  · intro s' hs'
    cases decks with
    | nil => cases hs'
    | cons top rest =>
      cases hs'
      refine ⟨rfl, ?_⟩
      by_cases hm : c ∈ top
      · by_cases he : top.erase c = []
        · left
          simp [Decks.draw, hm, he]
        · right
          simp [Decks.draw, hm, he]
      · right
        simp [Decks.draw, hm]
  · unfold Decks.remove_discard
    split
    · rfl
    · rfl
  · intro s' hs'
    unfold Decks.unmark_card dictDel at hs'
    split at hs'
    · cases hs'
      rfl
    · cases hs'
  · intro s' hs'
    unfold Decks.unmark_card dictDel at hs'
    split at hs'
    · cases hs'
      rfl
    · cases hs'
  · unfold Decks.remove_discard
    split
    · rfl
    · rfl

unseal String.ltb List.merge List.mergeSort in
/-- Witness for `C10_frame`: a concrete draw that pops the topmost deck, and
a concrete `unmark_card`. -/
theorem C10_frame_witness :
    ((({ infection_deck := [], discard_pile := ["a"], card_to_color := [] }
        : Decks).card_to_color =
      ({ infection_deck := [["a"]], discard_pile := [], card_to_color := [] }
        : Decks).card_to_color) ∧
     (({ infection_deck := [], discard_pile := ["a"], card_to_color := [] }
        : Decks).infection_deck =
      ({ infection_deck := [["a"]], discard_pile := [], card_to_color := [] }
        : Decks).infection_deck.tail ∨
      ({ infection_deck := [], discard_pile := ["a"], card_to_color := [] }
        : Decks).infection_deck.tail =
      ({ infection_deck := [["a"]], discard_pile := [], card_to_color := [] }
        : Decks).infection_deck.tail)) ∧
    ({ infection_deck := [["x"]], discard_pile := ["d"], card_to_color := [] }
      : Decks).infection_deck =
    ({ infection_deck := [["x"]], discard_pile := ["d"],
        card_to_color := [("a", "red")] } : Decks).infection_deck :=
  ⟨(C10_frame
      { infection_deck := [["a"]], discard_pile := [], card_to_color := [] }
      "a" "v").1
      { infection_deck := [], discard_pile := ["a"], card_to_color := [] }
      (by decide),
   (C10_frame
      { infection_deck := [["x"]], discard_pile := ["d"],
        card_to_color := [("a", "red")] } "a" "v").2.2.2.1
      { infection_deck := [["x"]], discard_pile := ["d"],
        card_to_color := [] }
      (by decide)⟩

end PandemicHelper
